import Mathlib

/-!
Verification development for the "aplicacion_incidencias" repository
(two Streamlit app variants: `app_optimized.py` and
`src/pipeline_maestros_app.py`).

Shallow embedding conventions:
* Python strings are embedded as `List Char` (`PyStr`); `None`/`NaN`
  spreadsheet cells as `Option PyStr`.
* Python floats are embedded as exact rationals (`ℚ`); IEEE rounding and
  overflow-to-infinity are outside the model.
* A Python function that can raise is embedded with `Option`/`Except`,
  `none`/`.error` marking the raised exception.
-/

set_option linter.unusedVariables false

abbrev PyStr := List Char

/-- Python whitespace test used by `str.strip()` / `float()` (ASCII part). -/
def pyWs (c : Char) : Bool :=
  c = ' ' || c = '\t' || c = '\n' || c = '\r'

/-- Left trim, as in the leading part of Python `str.strip()`. -/
def trimL (cs : PyStr) : PyStr := cs.dropWhile pyWs

/-- Right trim, implemented by reversing around a left trim. -/
def trimR (cs : PyStr) : PyStr := (trimL cs.reverse).reverse

/-- Python `str.strip()` restricted to ASCII whitespace. -/
def pyStrip (cs : PyStr) : PyStr := trimR (trimL cs)

/-- Python `str.upper()` restricted to the ASCII letters that occur here. -/
def pyUpper (cs : PyStr) : PyStr := cs.map Char.toUpper

/-- Python `str.lower()` restricted to ASCII. -/
def pyLower (cs : PyStr) : PyStr := cs.map Char.toLower

/-- `str(cell)` for a spreadsheet cell: a missing value prints as `"nan"`. -/
def cellStr (c : Option PyStr) : PyStr :=
  match c with
  | none => ['n', 'a', 'n']
  | some s => s

/-- The decimal digit characters, least significant value first. -/
def dchar : ℕ → Char
  | 0 => '0'
  | 1 => '1'
  | 2 => '2'
  | 3 => '3'
  | 4 => '4'
  | 5 => '5'
  | 6 => '6'
  | 7 => '7'
  | 8 => '8'
  | _ => '9'

/-- Numeric value of a decimal digit character. -/
def digitVal (c : Char) : ℕ := c.toNat - 48

/-- Value of a digit string, most significant digit first. -/
def digitsToNat (ds : List Char) : ℕ :=
  ds.foldl (fun a c => 10 * a + digitVal c) 0

/-- Decimal digits of `n` (fuel-indexed so that it reduces in the kernel). -/
def natToDigitsAux : ℕ → ℕ → List Char
  | 0, _ => []
  | fuel + 1, n => if n < 10 then [dchar n] else natToDigitsAux fuel (n / 10) ++ [dchar (n % 10)]

/-- Decimal digits of `n`, as produced by Python `str` on a nonnegative int. -/
def natToDigits (n : ℕ) : List Char := natToDigitsAux (n + 1) n

/-- Python `str` on an int: optional minus sign followed by decimal digits. -/
def intToStr (i : ℤ) : PyStr :=
  if i < 0 then '-' :: natToDigits i.natAbs else natToDigits i.natAbs

/-- Python `int()` on a float value: truncation toward zero. -/
def pyTrunc (q : ℚ) : ℤ := q.num.tdiv (q.den : ℤ)

/-- Apply a decimal exponent to a mantissa, staying in ℚ. -/
def applyExp (m : ℚ) (e : ℤ) : ℚ :=
  if 0 ≤ e then m * (10 : ℚ) ^ e.toNat else m / (10 : ℚ) ^ (-e).toNat

/-- Exponent digits after an optional sign: nonempty, all decimal. -/
def parseExpDigits (cs : List Char) : Option ℤ :=
  if cs ≠ [] ∧ cs.all Char.isDigit then some (digitsToNat cs : ℤ) else none

/-- The exponent part following `e`/`E` in a float literal. -/
def parseExpTail (cs : List Char) : Option ℤ :=
  match cs with
  | '+' :: rest => parseExpDigits rest
  | '-' :: rest => (parseExpDigits rest).map (fun n => -n)
  | rest => parseExpDigits rest

/-- Consume an optional exponent suffix; anything else is a parse error. -/
def parseExpPart (m : ℚ) (cs : List Char) : Option ℚ :=
  match cs with
  | [] => some m
  | c :: rest =>
    if c = 'e' ∨ c = 'E' then (parseExpTail rest).map (fun e => applyExp m e) else none

/-- Mantissa of a float literal: `digits`, `digits.digits`, `.digits` or
`digits.`; returns its value and the unconsumed remainder. -/
def parseMantissa (cs : List Char) : Option (ℚ × List Char) :=
  let ip := cs.takeWhile Char.isDigit
  let rest1 := cs.dropWhile Char.isDigit
  match rest1 with
  | '.' :: rest2 =>
    let fp := rest2.takeWhile Char.isDigit
    let rest3 := rest2.dropWhile Char.isDigit
    if ip = [] ∧ fp = [] then none
    else some ((digitsToNat ip : ℚ) + (digitsToNat fp : ℚ) / (10 : ℚ) ^ fp.length, rest3)
  | _ => if ip = [] then none else some ((digitsToNat ip : ℚ), rest1)

/-- Unsigned float literal: mantissa followed by an optional exponent. -/
def parseUnsigned (cs : List Char) : Option ℚ :=
  match parseMantissa cs with
  | none => none
  | some (m, rest) => parseExpPart m rest

/-- Signed float literal (whitespace already stripped). -/
def parseFloatCore (cs : List Char) : Option ℚ :=
  match cs with
  | [] => none
  | c :: rest =>
    if c = '+' then parseUnsigned rest
    else if c = '-' then (parseUnsigned rest).map (fun q => -q)
    else parseUnsigned cs

/-- Python `float(s)` on a finite decimal / scientific literal, as an exact
rational; `none` models a raised `ValueError` (and, conflated with it, the
`OverflowError`/`ValueError` that `int()` raises on `inf`/`nan`, since every
caller in the source wraps `int(float(s))` in the same `try`). -/
def parseFloat? (cs : PyStr) : Option ℚ := parseFloatCore (pyStrip cs)

/-- Agreement-code normalization from `build_tarifa_lookup` /
`get_precio_nocturnidad`: `str(int(float(s)))`, falling back to
`str(s).strip()` when the conversion raises. -/
def normalizeConvenio (s : PyStr) : PyStr :=
  match parseFloat? s with
  | some q => intToStr (pyTrunc q)
  | none => pyStrip s

/-- The digits-only gate of the center-code lambda:
`str(x).replace('.', '').replace('-', '').isdigit()`. -/
def centroGate (s : PyStr) : Bool :=
  let t := s.filter (fun c => c ≠ '.' && c ≠ '-')
  t ≠ [] && t.all Char.isDigit

/-- Center-code normalization from `preprocess_centros` (and the analogous
lambdas in `get_centros_lookup` / `df_trabajadores`):
`str(int(float(x))) if str(x).replace('.','').replace('-','').isdigit() else str(x)`.
The outer `none` models the uncaught `ValueError` raised when the gate
passes but `float` fails (e.g. `"1.2.3"`). -/
def normalizeCentro (s : PyStr) : Option PyStr :=
  if centroGate s then (parseFloat? s).map (fun q => intToStr (pyTrunc q)) else some s

/-! ### Night-rate tariff lookup (`build_tarifa_lookup` / `get_precio_nocturnidad`,
`app_optimized.py`) -/

/-- One row of the `tarifas_incidencias` sheet.  `none` in `descripcion` or
`cod_convenio` models a `NaN` cell; `none` in `tarifa` models a cell on which
`float(...)` raises (row skipped by the `except: continue`) or is `NaN`
(row skipped by the `pd.notna(tarifa)` check). -/
structure TarifaRow where
  descripcion : Option PyStr
  cod_convenio : Option PyStr
  tarifa : Option ℚ

/-- `build_tarifa_lookup`: key = (`str(desc).strip().upper()`, normalized
agreement code); later rows overwrite earlier ones.  NOTE: no category
prefix stripping happens on this side. -/
def buildTarifaLookup (rows : List TarifaRow) : PyStr × PyStr → Option ℚ :=
  rows.foldl
    (fun lk row =>
      match row.tarifa with
      | none => lk
      | some t =>
        let cat := pyUpper (pyStrip (cellStr row.descripcion))
        let conv :=
          match row.cod_convenio with
          | none => ([] : PyStr)
          | some s => normalizeConvenio s
        if cat ≠ [] ∧ conv ≠ [] then (fun k => if k = (cat, conv) then some t else lk k) else lk)
    (fun _ => none)

/-- `categoria_norm.split(' ', 1)`: drop a leading one-character token
(`"H ASL"` becomes `"ASL"`). -/
def stripLetterTok (cs : PyStr) : PyStr :=
  let before := cs.takeWhile (fun c => c ≠ ' ')
  let rest := cs.dropWhile (fun c => c ≠ ' ')
  match rest with
  | [] => cs
  | _ :: after => if before.length = 1 then after else cs

/-- `OptimizedDataManager.get_precio_nocturnidad`: normalizes the query
category (strip + upper + one-letter-token removal) and the query agreement
code, then reads the lookup with default `0.0`. -/
def getPrecioNocturnidad (lookup : PyStr × PyStr → Option ℚ)
    (categoria cod_convenio : Option PyStr) : ℚ :=
  let cat0 := match categoria with
    | none => ([] : PyStr)
    | some s => pyUpper (pyStrip s)
  let cat := if cat0 ≠ [] then stripLetterTok cat0 else cat0
  let conv := match cod_convenio with
    | none => ([] : PyStr)
    | some s => if s ≠ [] then normalizeConvenio s else []
  if cat = [] ∨ conv = [] then 0 else (lookup (cat, conv)).getD 0

/-! ### The `Incidencia` record (`app_optimized.py`) -/

/-- The dataclass `Incidencia` of `app_optimized.py`.  All text fields are
Python `str` (empty by default); the hour/price fields are floats. -/
structure Incidencia where
  trabajador : PyStr := []
  imputacion_nomina : PyStr := []
  facturable : PyStr := []
  motivo : PyStr := []
  codigo_crown_origen : PyStr := []
  codigo_crown_destino : PyStr := []
  empresa_destino : PyStr := []
  incidencia_horas : ℚ := 0
  incidencia_precio : ℚ := 0
  nocturnidad_horas : ℚ := 0
  traslados_total : ℚ := 0
  coste_hora : ℚ := 0
  fecha : PyStr := []
  observaciones : PyStr := []
  centro_preferente : PyStr := []
  nombre_jefe_ope : PyStr := []
  categoria : PyStr := []
  servicio : PyStr := []
  cod_reg_convenio : PyStr := []
  nombre_crown_destino : PyStr := []
  deriving DecidableEq

/-- `Incidencia.is_valid`: the five required fields are not `None` and not
empty.  (String fields are never `None` in the dataclass, so only the
emptiness test is material.) -/
def Incidencia.isValid (inc : Incidencia) : Bool :=
  [inc.trabajador, inc.facturable, inc.motivo, inc.codigo_crown_destino, inc.fecha].all
    (fun f => f ≠ [])

/-- The `Incidencia` dataclass of `src/pipeline_maestros_app.py` (second
workflow variant).  `fecha_incidencia` is a `datetime.date`; it is embedded
as its display string, nonempty for every real date. -/
structure IncidenciaP where
  nombre_trabajador : PyStr := []
  fecha_incidencia : PyStr := []
  tipo_incidencia : PyStr := []
  horas_base : ℚ := 0
  horas_nocturnidad : ℚ := 0
  traslados_total : ℚ := 0
  incidencia_precio : ℚ := 0
  cod_empleado : PyStr := []
  coste_hora : ℚ := 0
  categoria : PyStr := []
  cod_reg_convenio : PyStr := []
  cuenta_contable : PyStr := []
  deriving DecidableEq

/-- `Incidencia.is_valid` of the pipeline variant:
`bool(self.nombre_trabajador and self.fecha_incidencia)`. -/
def IncidenciaP.isValid (inc : IncidenciaP) : Bool :=
  inc.nombre_trabajador ≠ [] && inc.fecha_incidencia ≠ []

/-! ### Aggregate metrics (`_calculate_metrics_optimized`, both variants) -/

/-- Python `x or 0.0` on a float: `0.0` when `x` is falsy (i.e. `0.0`). -/
def pyOr0 (q : ℚ) : ℚ := if q = 0 then 0 else q

/-- The five metric totals returned by `_calculate_metrics_optimized`. -/
structure Metrics where
  total_incidencias : ℚ
  total_nocturnidad : ℚ
  total_traslados : ℚ
  total_simple : ℚ
  total_con_ss : ℚ

/-- The accumulation loop of `app_optimized.py`'s
`_calculate_metrics_optimized`.  The per-key `precio_cache` is a
memoization of the pure lookup `precio` and is embedded as the direct
call. -/
def metricsLoopOpt (precio : PyStr → PyStr → ℚ) : List Incidencia → ℚ × ℚ × ℚ → ℚ × ℚ × ℚ
  | [], acc => acc
  | inc :: rest, (ti, tn, tt) =>
    metricsLoopOpt precio rest
      (ti + pyOr0 inc.incidencia_precio * pyOr0 inc.incidencia_horas,
       tn + precio inc.categoria inc.cod_reg_convenio * pyOr0 inc.nocturnidad_horas,
       tt + pyOr0 inc.traslados_total * pyOr0 inc.coste_hora)

/-- `_calculate_metrics_optimized` of `app_optimized.py`: note the transfer
total is accumulated as `traslados_total * coste_hora` and the SS
multiplier is the fixed literal `1.3195`. -/
def calculateMetricsOptimized (precio : PyStr → PyStr → ℚ) (incs : List Incidencia) : Metrics :=
  let acc := metricsLoopOpt precio incs (0, 0, 0)
  { total_incidencias := acc.1
    total_nocturnidad := acc.2.1
    total_traslados := acc.2.2
    total_simple := acc.1 + acc.2.1 + acc.2.2
    total_con_ss := (acc.1 + acc.2.1) * (13195 / 10000) + acc.2.2 }

/-- The accumulation loop of the pipeline variant's
`_calculate_metrics_optimized`: transfers are summed directly. -/
def metricsLoopPipeline (precio : PyStr → PyStr → ℚ) : List IncidenciaP → ℚ × ℚ × ℚ → ℚ × ℚ × ℚ
  | [], acc => acc
  | inc :: rest, (ti, tn, tt) =>
    metricsLoopPipeline precio rest
      (ti + inc.incidencia_precio * inc.horas_base,
       tn + precio inc.categoria inc.cod_reg_convenio * inc.horas_nocturnidad,
       tt + inc.traslados_total)

/-- `_calculate_metrics_optimized` of `src/pipeline_maestros_app.py`: the SS
multiplier comes from the configuration
(`CFG['transformaciones'].get('multiplicador_ss', 1.35)`). -/
def calculateMetricsPipeline (mult : ℚ) (precio : PyStr → PyStr → ℚ)
    (incs : List IncidenciaP) : Metrics :=
  let acc := metricsLoopPipeline precio incs (0, 0, 0)
  { total_incidencias := acc.1
    total_nocturnidad := acc.2.1
    total_traslados := acc.2.2
    total_simple := acc.1 + acc.2.1 + acc.2.2
    total_con_ss := (acc.1 + acc.2.1) * mult + acc.2.2 }

/-! ### Export (`OptimizedExportManager.export_to_excel`, both variants).
The xlsx serialization itself (pandas/openpyxl) is an external collaborator;
the embedding stops at the fully computed list of export rows, `none`
standing for the explicit `return None`. -/

/-- An employee record as produced by `build_empleado_lookup`
(`app_optimized.py`): the fixed default values are already applied. -/
structure EmpInfo where
  nombre_empleado : PyStr := []
  servicio : PyStr := []
  cat_empleado : PyStr := []
  cod_crown : PyStr := []
  centro_preferente : PyStr := []
  nombre_centro_preferente : PyStr := []
  nombre_jefe_ope : PyStr := []
  coste_hora : ℚ := 0
  cod_reg_convenio : PyStr := []
  porcen_contrato : PyStr := []
  cod_empresa : PyStr := []
  deriving DecidableEq

/-- External context consumed by `export_to_excel`:
`get_precio_nocturnidad`, `get_empleado_info`, and the
`cuenta_motivos` sheet rows (motive, account description). -/
structure ExportCtx where
  precio : PyStr → PyStr → ℚ
  empinfo : PyStr → Option EmpInfo
  motivoRows : List (PyStr × PyStr)

/-- Boolean "does `pat` start `l`" (Python `str.startswith`). -/
def startsMatch : PyStr → PyStr → Bool
  | [], _ => true
  | _ :: _, [] => false
  | p :: ps, c :: cs => p = c && startsMatch ps cs

/-- Boolean "does `pat` occur inside `l`" (Python `in` on strings). -/
def containsSub (pat : PyStr) : PyStr → Bool
  | [] => pat = []
  | c :: cs => startsMatch pat (c :: cs) || containsSub pat cs

/-- `_add_calculated_columns`: map each motive to an account bucket from the
textual rules on the account description; later rows overwrite. -/
def buildMotivoToCuenta (rows : List (PyStr × PyStr)) : PyStr → Option PyStr :=
  rows.foldl
    (fun mp row =>
      let desc := row.2
      let codigo : Option PyStr :=
        if containsSub ('7' :: '0' :: '/' :: '7' :: '1' :: []) desc then some ['7', '0', '_', '7', '1']
        else if startsMatch ['7', '3'] desc then some ['7', '3']
        else if startsMatch ['7', '2'] desc then some ['7', '2']
        else if startsMatch ['7', '4'] desc then some ['7', '4']
        else none
      match codigo with
      | some cta => (fun m => if m = row.1 then some cta else mp m)
      | none => mp)
    (fun _ => none)

/-- One fully computed row of the exported workbook (`app_optimized.py`):
the 24 literal columns of the comprehension in `export_to_excel` plus the
four account-bucket columns of `_add_calculated_columns` and the
`Coste_total` of `_add_final_calculations`. -/
structure ExportRow where
  jefe_de_operaciones : PyStr
  mes_imputacion : PyStr
  facturable : PyStr
  servicio : PyStr
  motivo : PyStr
  trabajador : PyStr
  empresa_destino : PyStr
  codigo_crown_destino : PyStr
  centro_destino : PyStr
  categoria : PyStr
  cuantia : ℚ
  precio : ℚ
  cuantia_nocturnidad : ℚ
  precio_nocturnidad : ℚ
  horas_traslado : ℚ
  coste_hora : ℚ
  empresa_origen : PyStr
  codigo_crown_origen : PyStr
  fecha : PyStr
  observaciones : PyStr
  cod_reg_convenio : PyStr
  porcen_contrato : PyStr
  cod_empresa : PyStr
  nombre_centro : PyStr
  cta73_plus_sustitucion : ℚ
  cta72_incentivos : ℚ
  cta70_71_festivos : ℚ
  cta74_plus_nocturnidad : ℚ
  coste_total : ℚ

/-- Build one export row for a valid record, given the precomputed
night-price dictionary `precios` (read with default `0.0`). -/
def buildExportRow (ctx : ExportCtx) (precios : PyStr × PyStr → Option ℚ)
    (inc : Incidencia) : ExportRow :=
  let pnoct := (precios (inc.categoria, inc.cod_reg_convenio)).getD 0
  let cuenta := buildMotivoToCuenta ctx.motivoRows inc.motivo
  let totalIncidencia := inc.incidencia_precio * inc.incidencia_horas
  { jefe_de_operaciones := inc.nombre_jefe_ope
    mes_imputacion := inc.imputacion_nomina
    facturable := inc.facturable
    servicio := inc.servicio
    motivo := inc.motivo
    trabajador := inc.trabajador
    empresa_destino := inc.empresa_destino
    codigo_crown_destino := inc.codigo_crown_destino
    centro_destino := inc.nombre_crown_destino
    categoria := inc.categoria
    cuantia := inc.incidencia_horas
    precio := inc.incidencia_precio
    cuantia_nocturnidad := inc.nocturnidad_horas
    precio_nocturnidad := pnoct
    horas_traslado := inc.traslados_total
    coste_hora := inc.coste_hora
    empresa_origen := inc.centro_preferente
    codigo_crown_origen := inc.codigo_crown_origen
    fecha := inc.fecha
    observaciones := inc.observaciones
    cod_reg_convenio := inc.cod_reg_convenio
    porcen_contrato := ((ctx.empinfo inc.trabajador).map (fun e => e.porcen_contrato)).getD []
    cod_empresa := ((ctx.empinfo inc.trabajador).map (fun e => e.cod_empresa)).getD []
    nombre_centro := ((ctx.empinfo inc.trabajador).map (fun e => e.nombre_centro_preferente)).getD []
    cta73_plus_sustitucion := if cuenta = some ['7', '3'] then totalIncidencia else 0
    cta72_incentivos := if cuenta = some ['7', '2'] then totalIncidencia else 0
    cta70_71_festivos := if cuenta = some ['7', '0', '_', '7', '1'] then totalIncidencia else 0
    cta74_plus_nocturnidad := pnoct * inc.nocturnidad_horas
    coste_total := (inc.incidencia_horas * inc.incidencia_precio
      + inc.nocturnidad_horas * pnoct) * (13195 / 10000) + inc.traslados_total }

/-- `export_to_excel` of `app_optimized.py`: filter to valid records,
return `None` when none remain, otherwise one row per valid record with the
night price read from the `unique_keys` dictionary. -/
def exportToExcel (ctx : ExportCtx) (incs : List Incidencia) : Option (List ExportRow) :=
  let valids := incs.filter (fun i => i.isValid)
  if valids = [] then none
  else
    let keys := valids.map (fun i => (i.categoria, i.cod_reg_convenio))
    let precios : PyStr × PyStr → Option ℚ :=
      fun k => if keys.contains k then some (ctx.precio k.1 k.2) else none
    some (valids.map (fun i => buildExportRow ctx precios i))

/-- One export row of the pipeline variant: the record fields plus the
mapped `Cuenta contable` and the two cost columns. -/
structure ExportRowP where
  nombre_trabajador : PyStr
  fecha_incidencia : PyStr
  tipo_incidencia : PyStr
  horas_base : ℚ
  horas_nocturnidad : ℚ
  traslados_total : ℚ
  incidencia_precio : ℚ
  cuenta_contable : Option PyStr
  coste_ss_multiplicador : ℚ
  coste_nocturnidad_sin_ss : ℚ

/-- `export_to_excel` of the pipeline variant.  `cuentas` is the
`Nombre → Cuenta contable` mapping built from `cuenta_motivos`;
`precioSeries` is the single scalar the code obtains by calling
`get_precio_nocturnidad` once on whole pandas `Series` arguments.
Note there is NO validity filter and the emptiness test is on the raw
input list. -/
def pipelineExport (cuentas : PyStr → Option PyStr) (precioSeries : ℚ)
    (incs : List IncidenciaP) : Option (List ExportRowP) :=
  if incs = [] then none
  else
    some (incs.map (fun inc =>
      { nombre_trabajador := inc.nombre_trabajador
        fecha_incidencia := inc.fecha_incidencia
        tipo_incidencia := inc.tipo_incidencia
        horas_base := inc.horas_base
        horas_nocturnidad := inc.horas_nocturnidad
        traslados_total := inc.traslados_total
        incidencia_precio := inc.incidencia_precio
        cuenta_contable := cuentas inc.tipo_incidencia
        coste_ss_multiplicador := inc.incidencia_precio * inc.horas_base * (13195 / 10000)
        coste_nocturnidad_sin_ss := inc.horas_nocturnidad * precioSeries }))

/-! ### Delete-selected (`OptimizedTablaIncidencias._delete_selected_rows`) -/

/-- The global indices collected by the marking loop, in the ascending
order the loop produces them. -/
def ascIndices (start : ℕ) : List Bool → List ℕ
  | [] => []
  | b :: bs => if b then start :: ascIndices (start + 1) bs else ascIndices (start + 1) bs

/-- One guarded deletion step: `if 0 <= idx < len(incidents): del incidents[idx]`. -/
def deleteStep (l : List α) (idx : ℕ) : List α :=
  if idx < l.length then l.eraseIdx idx else l

/-- `_delete_selected_rows`: collect the marked global indices, warn and
leave the collection untouched when there are none, otherwise delete them
in descending order (`sorted(..., reverse=True)` of an ascending list is
its reverse).  The returned Bool is `true` when the no-rows-marked warning
was shown. -/
def deleteSelectedRows (start : ℕ) (marks : List Bool) (incs : List α) : List α × Bool :=
  let idxs := ascIndices start marks
  if idxs = [] then (incs, true)
  else (idxs.reverse.foldl deleteStep incs, false)

/-- Specification-side description of the delete: the page slice starting
at `start` with marked rows removed, everything outside the slice kept. -/
def applyMarks : List Bool → List α → List α
  | [], l => l
  | _ :: _, [] => []
  | b :: bs, x :: xs => if b then applyMarks bs xs else x :: applyMarks bs xs

/-! ### Page editing (`_process_page_changes` / `_actualizar_datos_empleado`) -/

/-- `_actualizar_datos_empleado`: refresh the record's derived fields from
the employee lookup; `crown_origen` is accepted and ignored exactly as in
the source (the origin is re-derived from the employee's preferred
center). -/
def actualizarDatosEmpleado (empinfo : PyStr → Option EmpInfo)
    (centros : PyStr → Option PyStr) (inc : Incidencia) (nombre : PyStr)
    (crown_origen crown_destino : PyStr) : Incidencia :=
  if nombre = [] then inc
  else
    match empinfo nombre with
    | none => inc
    | some info =>
      let cp := info.centro_preferente
      let base := { inc with
        trabajador := info.nombre_empleado
        categoria := info.cat_empleado
        servicio := info.servicio
        centro_preferente := cp
        codigo_crown_origen := cp
        cod_reg_convenio := info.cod_reg_convenio
        nombre_jefe_ope := info.nombre_jefe_ope
        coste_hora := info.coste_hora }
      if crown_destino ≠ [] then
        { base with
          codigo_crown_destino := crown_destino
          nombre_crown_destino := (centros crown_destino).getD [] }
      else
        { base with
          codigo_crown_destino := cp
          nombre_crown_destino := (centros cp).getD [] }

/-- One edited row of the visible page of the data editor.  Only the
columns actually present in the edited frame appear (the seven disabled
derived columns are dropped from the frame before editing, and
`Precio_nocturnidad` has no entry in `column_to_field_map`).
`none` models a `None`/`NaN` cell. -/
structure EditedRow where
  borrar : Bool := false
  trabajador : Option PyStr := none
  facturable : Option PyStr := none
  motivo : Option PyStr := none
  codigo_crown_origen : Option PyStr := none
  codigo_crown_destino : Option PyStr := none
  empresa_destino : Option PyStr := none
  incidencia_horas : Option ℚ := none
  incidencia_precio : Option ℚ := none
  nocturnidad_horas : Option ℚ := none
  traslados_total : Option ℚ := none
  fecha : Option PyStr := none
  observaciones : Option PyStr := none
  deriving DecidableEq

/-- Numeric coercion: `float(value) if value not in (None, "") else 0.0`,
`0.0` on conversion failure; `none` covers the failure cases. -/
def numCoerce (v : Option ℚ) : ℚ := v.getD 0

/-- Remove every (non-overlapping, left-to-right) occurrence of the
two-character pattern `".0"` — Python `str.replace('.0', '')`. -/
def removeDotZero : PyStr → PyStr
  | [] => []
  | '.' :: '0' :: rest => removeDotZero rest
  | c :: rest => c :: removeDotZero rest

/-- Center-code coercion of `_process_page_changes`:
nullish sentinels map to `""`, otherwise `str(value).replace('.0','').strip()`. -/
def codeCoerce (v : Option PyStr) : PyStr :=
  match v with
  | none => []
  | some s =>
    if s = [] ∨ s = ['n', 'a', 'n'] ∨ s = ['N', 'o', 'n', 'e'] then []
    else pyStrip (removeDotZero s)

/-- Date coercion: `None`/`NaN` becomes `""`, otherwise `str(value).strip()`. -/
def fechaCoerce (v : Option PyStr) : PyStr :=
  match v with
  | none => []
  | some s => pyStrip s

/-- General string coercion: `None`/`NaN` or a lowercase form in
`('nan', 'none', '')` becomes `""`, otherwise `str(value).strip()`. -/
def strCoerce (v : Option PyStr) : PyStr :=
  match v with
  | none => []
  | some s =>
    if pyLower s = ['n', 'a', 'n'] ∨ pyLower s = ['n', 'o', 'n', 'e'] ∨ pyLower s = [] then []
    else pyStrip s

/-- The per-row body of `_process_page_changes` for an on-page row that is
not marked for deletion: copy the original record, overwrite the mapped
columns with their coerced edited values, and re-run the employee
derivation when the worker name changed to a nonempty value. -/
def processRow (empinfo : PyStr → Option EmpInfo) (centros : PyStr → Option PyStr)
    (inc : Incidencia) (row : EditedRow) : Incidencia :=
  let n : Incidencia := { inc with
    trabajador := strCoerce row.trabajador
    facturable := strCoerce row.facturable
    motivo := strCoerce row.motivo
    codigo_crown_origen := codeCoerce row.codigo_crown_origen
    codigo_crown_destino := codeCoerce row.codigo_crown_destino
    empresa_destino := strCoerce row.empresa_destino
    incidencia_horas := numCoerce row.incidencia_horas
    incidencia_precio := numCoerce row.incidencia_precio
    nocturnidad_horas := numCoerce row.nocturnidad_horas
    traslados_total := numCoerce row.traslados_total
    fecha := fechaCoerce row.fecha
    observaciones := strCoerce row.observaciones }
  if n.trabajador ≠ [] ∧ n.trabajador ≠ inc.trabajador then
    actualizarDatosEmpleado empinfo centros n n.trabajador [] n.codigo_crown_destino
  else n

/-! ### Content hash (`_get_file_hash`) -/

/-- Outcome of opening and reading the master workbook. -/
inductive FileState where
  | missing : FileState
  | ok (bytes : List ℕ) : FileState
  | err : FileState
  deriving DecidableEq

/-- `_get_file_hash`: MD5 hexdigest of the file bytes, the sentinel
`"FILE_NOT_FOUND"` when the file does not exist, `"ERROR_HASH"` on any
exception.  The digest itself (`hashlib.md5(..).hexdigest()`) is an
external library function and enters the model as the parameter `md5hex`;
its hexdigest output is always 32 characters long. -/
def getFileHash (md5hex : List ℕ → PyStr) : FileState → PyStr
  | .missing => ['F', 'I', 'L', 'E', '_', 'N', 'O', 'T', '_', 'F', 'O', 'U', 'N', 'D']
  | .ok bytes => md5hex bytes
  | .err => ['E', 'R', 'R', 'O', 'R', '_', 'H', 'A', 'S', 'H']

/-! ### Header selectors (`OptimizedIncidenciasApp._render_header`, both
variants) -/

/-- The session state touched by the header of `app_optimized.py`. -/
structure AppState where
  selected_imputacion : PyStr
  selected_jefe : PyStr
  incidencias : List Incidencia
  selected_crown_code_origen : PyStr
  selected_crown_code_destino : PyStr
  deriving DecidableEq

/-- `_render_header` state update of `app_optimized.py`: a change of either
selector clears the record list (and the remembered crown codes). -/
def renderHeaderUpdate (s : AppState) (new_imputacion new_jefe : PyStr) : AppState :=
  let s1 :=
    if new_imputacion ≠ s.selected_imputacion then
      { s with selected_imputacion := new_imputacion, incidencias := [],
               selected_crown_code_origen := [], selected_crown_code_destino := [] }
    else s
  if new_jefe ≠ s1.selected_jefe then
    { s1 with selected_jefe := new_jefe, incidencias := [],
              selected_crown_code_origen := [], selected_crown_code_destino := [] }
  else s1

/-- The session state touched by the header of the pipeline variant. -/
structure AppStateP where
  selected_imputacion : PyStr
  selected_jefe : PyStr
  incidencias : List IncidenciaP
  deriving DecidableEq

/-- `_render_header` state update of `src/pipeline_maestros_app.py`. -/
def renderHeaderUpdateP (s : AppStateP) (new_imputacion new_jefe : PyStr) : AppStateP :=
  let s1 :=
    if new_imputacion ≠ s.selected_imputacion then
      { s with selected_imputacion := new_imputacion, incidencias := [] }
    else s
  if new_jefe ≠ s1.selected_jefe then
    { s1 with selected_jefe := new_jefe, incidencias := [] }
  else s1

/-! ### The Centros sheet loader (`preprocess_centros`, `app_optimized.py`) -/

/-- A pandas DataFrame over string-or-NaN cells: a list of column names and
rows aligned with them positionally. -/
structure Df where
  cols : List String
  rows : List (List (Option PyStr))
  deriving DecidableEq

/-- Read a cell of a row by column position, `NaN` past the end. -/
def getCell (r : List (Option PyStr)) (i : ℕ) : Option PyStr := r.getD i none

/-- Python `str.strip()` on a column label. -/
def strTrim (s : String) : String := ⟨pyStrip s.data⟩

/-- The `.apply` lambda of step 3 of `preprocess_centros` on one cell:
`str(int(float(x))) if pd.notna(x) and <digits gate> else str(x)`.
The outer `none` is the uncaught conversion error (which aborts the whole
`.apply`). -/
def normCentroCell (c : Option PyStr) : Option (Option PyStr) :=
  match c with
  | none => some (some ['n', 'a', 'n'])
  | some s =>
    if centroGate s then (parseFloat? s).map (fun q => some (intToStr (pyTrunc q)))
    else some (some s)

/-- Drop the named columns from a DataFrame (`df.drop(columns=..., errors='ignore')`). -/
def dropColsDf (df : Df) (names : List String) : Df :=
  let keep := (List.range df.cols.length).filter (fun t => ¬ df.cols.getD t "" ∈ names)
  { cols := keep.map (fun t => df.cols.getD t "")
    rows := df.rows.map (fun r => keep.map (fun t => r.getD t none)) }

/-- The supervisors excluded in step 4 of `preprocess_centros`. -/
def jefesExcluidos : List PyStr :=
  [ "Angel Alcalde".data, "Esther Martin Gonzalez".data, "Julio".data ]

/-- `preprocess_centros`: `.error ()` models an uncaught exception escaping
to the caller; the Bool records whether the missing-required-column warning
was shown.  Note the source reads `df['nombre_jefe_ope']` (step 4) BEFORE
the step-6 existence check for that column. -/
def preprocessCentros (df : Df) : Except Unit (Df × Bool) :=
  if df.rows = [] then .ok (⟨[], []⟩, false)
  else
    let cols := df.cols.map (fun c => strTrim c)
    match cols.findIdx? (fun c => c = "cod_centro_preferente") with
    | none => .ok (⟨[], []⟩, true)
    | some i =>
      let rows1 := df.rows.filter (fun r => (getCell r i).isSome)
      let rows2 := rows1.filter (fun r => ¬ getCell r i = some [])
      let rows3 :=
        match cols.findIdx? (fun c => c = "fecha_baja_centro") with
        | some j => rows2.filter (fun r => getCell r j = none)
        | none => rows2
      match rows3.mapM (fun r => (normCentroCell (getCell r i)).map (fun v => r.set i v)) with
      | none => .error ()
      | some rows4 =>
        let df2 := dropColsDf ⟨cols, rows4⟩
          ["fecha_alta_centro", "fecha_baja_centro", "almacen_centro"]
        match df2.cols.findIdx? (fun c => c = "nombre_jefe_ope") with
        | none => .error ()
        | some j =>
          let rows5 := df2.rows.filter (fun r =>
            ! (match getCell r j with
               | some v => decide (v ∈ jefesExcluidos)
               | none => false))
          match df2.cols.findIdx? (fun c => c = "cod_centro_preferente") with
          | none => .error ()
          | some i2 =>
            .ok (⟨df2.cols ++ ["codigo_centro"], rows5.map (fun r => r ++ [getCell r i2])⟩,
                 false)

/-! ### Concrete inputs used by the claim theorems -/

/-- A Centros sheet that has the required code column but no
`nombre_jefe_ope` column. -/
def dfSinJefe : Df := ⟨["cod_centro_preferente"], [[some ['1', '0', '0']]]⟩

/-- A tariff row whose raw category carries the one-letter prefix token. -/
def tarifaRowHASL : TarifaRow :=
  ⟨some ['H', ' ', 'A', 'S', 'L'], some "99100165012016".data, some 13⟩

/-- A record whose transfer total is 10 hours at an hourly cost of 2. -/
def incTraslados : Incidencia :=
  { trabajador := ['A'], facturable := ['S'], motivo := ['M'],
    codigo_crown_destino := ['1'], fecha := ['d'],
    traslados_total := 10, coste_hora := 2 }

/-- A fully valid record used by the export witness. -/
def incValida : Incidencia :=
  { trabajador := ['A'], facturable := ['S'], motivo := ['M'],
    codigo_crown_destino := ['1'], fecha := ['d'] }

/-- A pipeline-variant record that is NOT valid (empty worker name). -/
def incPInvalida : IncidenciaP := { fecha_incidencia := ['d'] }

/-- A pipeline-variant record that is valid. -/
def incPValida : IncidenciaP := { nombre_trabajador := ['B'], fecha_incidencia := ['d'] }

/-- A trivial export context for witnesses. -/
def exportCtx0 : ExportCtx := ⟨fun _ _ => 0, fun _ => none, []⟩

/-- A one-employee lookup used by the edit-cascade witness. -/
def empInfoB : EmpInfo :=
  { nombre_empleado := ['B'], cat_empleado := ['c'], servicio := ['s'],
    centro_preferente := ['9'], cod_reg_convenio := ['7'],
    nombre_jefe_ope := ['J'], coste_hora := 4 }

/-- Employee lookup containing exactly `empInfoB` under the name `"B"`. -/
def empLookupB : PyStr → Option EmpInfo :=
  fun n => if n = ['B'] then some empInfoB else none

/-- An edited page row that renames the worker to `"B"` and edits the hour
and price cells. -/
def rowRenameB : EditedRow :=
  { trabajador := some ['B'], facturable := some ['S'], motivo := some ['M'],
    codigo_crown_destino := some ['2'], fecha := some ['d'],
    incidencia_horas := some 3, incidencia_precio := some 5,
    nocturnidad_horas := some 1, traslados_total := some 2 }

/-- The same edited row but keeping the original worker name `"A"`. -/
def rowKeepA : EditedRow :=
  { trabajador := some ['A'], facturable := some ['S'], motivo := some ['M'],
    codigo_crown_destino := some ['2'], fecha := some ['d'],
    incidencia_horas := some 3, incidencia_precio := some 5,
    nocturnidad_horas := some 1, traslados_total := some 2 }

/-- The original record being edited in the cascade witness. -/
def incOrigA : Incidencia :=
  { trabajador := ['A'], categoria := ['k'], cod_reg_convenio := ['r'],
    nombre_jefe_ope := ['j'], servicio := ['v'], coste_hora := 1,
    centro_preferente := ['5'], nombre_crown_destino := ['n'],
    imputacion_nomina := ['m'] }

/-- A header state holding one record, used by the reset witness. -/
def stateWithRecords : AppState :=
  ⟨['m'], ['j'], [incValida], [], []⟩

/-- A pipeline header state holding one record. -/
def stateWithRecordsP : AppStateP := ⟨['m'], ['j'], [incPValida]⟩

/-- A stand-in digest function whose output has the MD5 hexdigest length,
used only to instantiate the content-hash theorem. -/
def md5hexConst : List ℕ → PyStr := fun _ => List.replicate 32 '0'

/-! ## Helper lemmas -/

lemma pyOr0_eq (q : ℚ) : pyOr0 q = q := by
  unfold pyOr0; split <;> simp_all

lemma dchar_isDigit (k : ℕ) : (dchar k).isDigit = true := by
  rcases k with _ | _ | _ | _ | _ | _ | _ | _ | _ | k <;> rfl

lemma digitVal_dchar (k : ℕ) (h : k < 10) : digitVal (dchar k) = k := by
  interval_cases k <;> rfl

lemma isDigit_not_ws {c : Char} (h : c.isDigit = true) : pyWs c = false := by
  by_contra hn
  have hw : pyWs c = true := by revert hn; cases pyWs c <;> simp
  unfold pyWs at hw
  rcases Bool.or_eq_true_iff.mp hw with hw | hw
  · rcases Bool.or_eq_true_iff.mp hw with hw | hw
    · rcases Bool.or_eq_true_iff.mp hw with hw | hw <;>
        simp only [decide_eq_true_eq] at hw <;> subst hw <;> simp at h
    · simp only [decide_eq_true_eq] at hw; subst hw; simp at h
  · simp only [decide_eq_true_eq] at hw; subst hw; simp at h

lemma isDigit_ne_special {c : Char} (h : c.isDigit = true) :
    c ≠ '.' ∧ c ≠ '-' ∧ c ≠ 'e' ∧ c ≠ 'E' ∧ c ≠ '+' := by
  refine ⟨?_, ?_, ?_, ?_, ?_⟩ <;> rintro rfl <;> simp at h

lemma digitsToNat_append (ds : List Char) (c : Char) :
    digitsToNat (ds ++ [c]) = 10 * digitsToNat ds + digitVal c := by
  unfold digitsToNat
  rw [List.foldl_append]
  rfl

lemma natToDigitsAux_spec :
    ∀ fuel n, n < fuel →
      natToDigitsAux fuel n ≠ [] ∧ (natToDigitsAux fuel n).all Char.isDigit = true ∧
        digitsToNat (natToDigitsAux fuel n) = n := by
  intro fuel
  induction fuel with
  | zero => intro n h; omega
  | succ f ih =>
    intro n h
    by_cases h10 : n < 10
    · simp only [natToDigitsAux, if_pos h10]
      refine ⟨by simp, by simp [dchar_isDigit], ?_⟩
      show digitsToNat [dchar n] = n
      have : digitsToNat [dchar n] = 10 * 0 + digitVal (dchar n) := rfl
      rw [this, digitVal_dchar n h10]; omega
    · have hdiv : n / 10 < f := by
        have h1 : n / 10 < n := Nat.div_lt_self (by omega) (by omega)
        omega
      obtain ⟨ihne, ihall, ihval⟩ := ih (n / 10) hdiv
      simp only [natToDigitsAux, if_neg h10]
      refine ⟨by simp, ?_, ?_⟩
      · rw [List.all_append]
        simp [ihall, dchar_isDigit]
      · rw [digitsToNat_append, ihval, digitVal_dchar _ (Nat.mod_lt _ (by omega))]
        omega

lemma natToDigits_spec (n : ℕ) :
    natToDigits n ≠ [] ∧ (natToDigits n).all Char.isDigit = true ∧
      digitsToNat (natToDigits n) = n :=
  natToDigitsAux_spec (n + 1) n (by omega)

lemma intToStr_chars (i : ℤ) : ∀ c ∈ intToStr i, c = '-' ∨ c.isDigit = true := by
  intro c hc
  unfold intToStr at hc
  have hall := (natToDigits_spec i.natAbs).2.1
  split at hc
  · rcases List.mem_cons.mp hc with hc2 | hc2
    · exact Or.inl hc2
    · exact Or.inr (List.all_eq_true.mp hall _ hc2)
  · exact Or.inr (List.all_eq_true.mp hall _ hc)

lemma takeWhile_all {p : α → Bool} : ∀ {l : List α}, l.all p = true → l.takeWhile p = l := by
  intro l
  induction l with
  | nil => intro _; rfl
  | cons c cs ih =>
    intro h
    rw [List.all_cons] at h
    obtain ⟨hc, hcs⟩ := Bool.and_eq_true_iff.mp h
    simp [List.takeWhile_cons, hc, ih hcs]

lemma dropWhile_all {p : α → Bool} : ∀ {l : List α}, l.all p = true → l.dropWhile p = [] := by
  intro l
  induction l with
  | nil => intro _; rfl
  | cons c cs ih =>
    intro h
    rw [List.all_cons] at h
    obtain ⟨hc, hcs⟩ := Bool.and_eq_true_iff.mp h
    simp [List.dropWhile_cons, hc, ih hcs]

lemma dropWhile_head_noop {p : α → Bool} :
    ∀ l : List α, (∀ c, l.head? = some c → p c = false) → l.dropWhile p = l := by
  intro l h
  cases l with
  | nil => rfl
  | cons c cs => simp [List.dropWhile_cons, h c rfl]

lemma trimL_head : ∀ (l : PyStr) (c : Char), (trimL l).head? = some c → pyWs c = false := by
  intro l
  induction l with
  | nil => intro c h; simp [trimL] at h
  | cons x xs ih =>
    intro c h
    by_cases hx : pyWs x
    · exact ih c (by simpa [trimL, List.dropWhile_cons, hx] using h)
    · have : x = c := by
        simp [trimL, List.dropWhile_cons, hx] at h
        exact h
      subst this
      exact Bool.not_eq_true _ ▸ (by simpa using hx)

lemma trimL_idem (l : PyStr) : trimL (trimL l) = trimL l :=
  dropWhile_head_noop (trimL l) (trimL_head l)

lemma dropWhile_suffix_self {p : α → Bool} : ∀ l : List α, l.dropWhile p <:+ l := by
  intro l
  induction l with
  | nil => exact ⟨[], rfl⟩
  | cons c cs ih =>
    by_cases hc : p c
    · rw [List.dropWhile_cons, if_pos hc]
      exact ih.trans ⟨[c], rfl⟩
    · rw [List.dropWhile_cons, if_neg hc]

lemma trimR_prefix (l : PyStr) : trimR l <+: l := by
  have h : trimL l.reverse <:+ l.reverse := dropWhile_suffix_self _
  have h2 : (trimL l.reverse).reverse <+: l.reverse.reverse := by
    exact List.reverse_prefix.mpr (by simpa using h)
  simpa [trimR] using h2

lemma head?_of_prefix {l₁ l₂ : List α} (h : l₁ <+: l₂) (hne : l₁ ≠ []) :
    l₂.head? = l₁.head? := by
  obtain ⟨t, rfl⟩ := h
  cases l₁ with
  | nil => exact absurd rfl hne
  | cons c cs => rfl

lemma trimR_idem (l : PyStr) : trimR (trimR l) = trimR l := by
  unfold trimR
  rw [List.reverse_reverse, trimL_idem]

lemma trimL_trimR_trimL (l : PyStr) : trimL (trimR (trimL l)) = trimR (trimL l) := by
  apply dropWhile_head_noop
  intro c hc
  have hpre : trimR (trimL l) <+: trimL l := trimR_prefix _
  have hne : trimR (trimL l) ≠ [] := by
    intro he
    rw [he] at hc
    simp at hc
  have := head?_of_prefix hpre hne
  exact trimL_head l c (this ▸ hc)

lemma pyStrip_idem (l : PyStr) : pyStrip (pyStrip l) = pyStrip l := by
  unfold pyStrip
  rw [trimL_trimR_trimL, trimR_idem]

lemma pyStrip_eq_self {l : PyStr} (h : ∀ c ∈ l, pyWs c = false) : pyStrip l = l := by
  have h1 : trimL l = l := by
    apply dropWhile_head_noop
    intro c hc
    cases l with
    | nil => simp at hc
    | cons x xs =>
      have : x = c := by simpa using hc
      exact h c (this ▸ List.mem_cons_self x xs)
  have h2 : trimL l.reverse = l.reverse := by
    apply dropWhile_head_noop
    intro c hc
    have : c ∈ l.reverse := by
      cases hr : l.reverse with
      | nil => rw [hr] at hc; simp at hc
      | cons y ys =>
        rw [hr] at hc
        have hy : y = c := by simpa using hc
        rw [← hy]
        exact List.mem_cons_self y ys
    exact h c (List.mem_reverse.mp this)
  simp [pyStrip, trimR, h1, h2]

lemma parseUnsigned_digits {ds : List Char} (hne : ds ≠ []) (hall : ds.all Char.isDigit = true) :
    parseUnsigned ds = some (digitsToNat ds : ℚ) := by
  unfold parseUnsigned parseMantissa
  rw [takeWhile_all hall, dropWhile_all hall]
  simp [hne, parseExpPart]

lemma pyStrip_digits {ds : List Char} (hall : ds.all Char.isDigit = true) : pyStrip ds = ds :=
  pyStrip_eq_self (fun c hc => isDigit_not_ws (List.all_eq_true.mp hall _ hc))

lemma parseFloat_digits {ds : List Char} (hne : ds ≠ []) (hall : ds.all Char.isDigit = true) :
    parseFloat? ds = some (digitsToNat ds : ℚ) := by
  unfold parseFloat?
  rw [pyStrip_digits hall]
  cases ds with
  | nil => exact absurd rfl hne
  | cons c cs =>
    have hc : c.isDigit = true := (Bool.and_eq_true_iff.mp (List.all_cons .. ▸ hall)).1
    obtain ⟨_, hm, he, _, hp⟩ := isDigit_ne_special hc
    simp only [parseFloatCore]
    rw [if_neg (by simpa using hp), if_neg (by simpa using hm)]
    exact parseUnsigned_digits hne hall

lemma parseFloat_intToStr (i : ℤ) : parseFloat? (intToStr i) = some (i : ℚ) := by
  obtain ⟨hne, hall, hval⟩ := natToDigits_spec i.natAbs
  by_cases hneg : i < 0
  · have hts : intToStr i = '-' :: natToDigits i.natAbs := by simp [intToStr, hneg]
    rw [hts]
    unfold parseFloat?
    rw [pyStrip_eq_self ?hw]
    case hw =>
      intro c hc
      rcases List.mem_cons.mp hc with hc2 | hc2
      · subst hc2; rfl
      · exact isDigit_not_ws (List.all_eq_true.mp hall _ hc2)
    simp only [parseFloatCore]
    rw [if_neg (by simp)]
    simp only [if_true]
    rw [parseUnsigned_digits hne hall, hval]
    have habs : ((i.natAbs : ℚ)) = -(i : ℚ) := by
      have h0 : (i.natAbs : ℤ) = -i := by omega
      calc ((i.natAbs : ℚ)) = ((i.natAbs : ℤ) : ℚ) := (Int.cast_natCast i.natAbs).symm
        _ = ((-i : ℤ) : ℚ) := by rw [h0]
        _ = -(i : ℚ) := by push_cast; ring
    simp [habs]
  · have hts : intToStr i = natToDigits i.natAbs := by simp [intToStr, hneg]
    rw [hts, parseFloat_digits hne hall, hval]
    have habs : ((i.natAbs : ℚ)) = (i : ℚ) := by
      have h0 : (i.natAbs : ℤ) = i := by omega
      calc ((i.natAbs : ℚ)) = ((i.natAbs : ℤ) : ℚ) := (Int.cast_natCast i.natAbs).symm
        _ = (i : ℚ) := by rw [h0]
    rw [habs]

lemma pyTrunc_intCast (i : ℤ) : pyTrunc (i : ℚ) = i := by
  unfold pyTrunc
  rw [Rat.num_intCast, Rat.den_intCast]
  simp [Int.tdiv_one]

lemma parseFloat_strip (s : PyStr) : parseFloat? (pyStrip s) = parseFloat? s := by
  unfold parseFloat?
  rw [pyStrip_idem]

lemma normalizeConvenio_of_parse {s : PyStr} {q : ℚ} (h : parseFloat? s = some q) :
    normalizeConvenio s = intToStr (pyTrunc q) := by
  simp [normalizeConvenio, h]

lemma normalizeConvenio_of_none {s : PyStr} (h : parseFloat? s = none) :
    normalizeConvenio s = pyStrip s := by
  simp [normalizeConvenio, h]

lemma normalizeConvenio_idem (s : PyStr) :
    normalizeConvenio (normalizeConvenio s) = normalizeConvenio s := by
  cases hp : parseFloat? s with
  | some q =>
    rw [normalizeConvenio_of_parse hp,
        normalizeConvenio_of_parse (parseFloat_intToStr (pyTrunc q)), pyTrunc_intCast]
  | none =>
    have h2 : parseFloat? (pyStrip s) = none := by rw [parseFloat_strip, hp]
    rw [normalizeConvenio_of_none hp, normalizeConvenio_of_none h2, pyStrip_idem]

lemma normalizeConvenio_chars {s : PyStr} {q : ℚ} (h : parseFloat? s = some q) :
    ∀ c ∈ normalizeConvenio s, c = '-' ∨ c.isDigit = true := by
  rw [normalizeConvenio_of_parse h]
  exact intToStr_chars (pyTrunc q)

lemma intToStr_no_special (i : ℤ) :
    '.' ∉ intToStr i ∧ 'e' ∉ intToStr i ∧ 'E' ∉ intToStr i := by
  refine ⟨?_, ?_, ?_⟩ <;> intro hmem <;>
    rcases intToStr_chars i _ hmem with h | h <;> simp_all

lemma filter_id_of_digits {ds : List Char} (hall : ds.all Char.isDigit = true) :
    ds.filter (fun c => c ≠ '.' && c ≠ '-') = ds := by
  apply List.filter_eq_self.mpr
  intro c hc
  have hd := List.all_eq_true.mp hall _ hc
  obtain ⟨h1, h2, _, _, _⟩ := isDigit_ne_special hd
  simp [h1, h2]

lemma centroGate_digits {ds : List Char} (hne : ds ≠ []) (hall : ds.all Char.isDigit = true) :
    centroGate ds = true := by
  simp only [centroGate]
  rw [filter_id_of_digits hall]
  simp [hne, hall]

lemma centroGate_intToStr (i : ℤ) : centroGate (intToStr i) = true := by
  obtain ⟨hne, hall, _⟩ := natToDigits_spec i.natAbs
  unfold intToStr
  split
  · simp only [centroGate]
    rw [show List.filter (fun c => c ≠ '.' && c ≠ '-') ('-' :: natToDigits i.natAbs)
          = List.filter (fun c => c ≠ '.' && c ≠ '-') (natToDigits i.natAbs) by
        simp [List.filter_cons]]
    rw [filter_id_of_digits hall]
    simp [hne, hall]
  · exact centroGate_digits hne hall

lemma normalizeCentro_fix {s t : PyStr} (h : normalizeCentro s = some t) :
    normalizeCentro t = some t := by
  unfold normalizeCentro at h ⊢
  by_cases hg : centroGate s = true
  · rw [if_pos hg] at h
    cases hp : parseFloat? s with
    | none => rw [hp] at h; simp at h
    | some q =>
      rw [hp] at h
      simp only [Option.map_some'] at h
      obtain rfl : intToStr (pyTrunc q) = t := by injection h
      rw [if_pos (centroGate_intToStr _), parseFloat_intToStr]
      simp [pyTrunc_intCast]
  · rw [if_neg hg] at h
    obtain rfl : s = t := by injection h
    rw [if_neg hg]

lemma metricsLoopOpt_spec (precio : PyStr → PyStr → ℚ) :
    ∀ (incs : List Incidencia) (a b c : ℚ),
      metricsLoopOpt precio incs (a, b, c) =
        (a + (incs.map (fun i => i.incidencia_precio * i.incidencia_horas)).sum,
         b + (incs.map (fun i => precio i.categoria i.cod_reg_convenio * i.nocturnidad_horas)).sum,
         c + (incs.map (fun i => i.traslados_total * i.coste_hora)).sum) := by
  intro incs
  induction incs with
  | nil => intro a b c; simp [metricsLoopOpt]
  | cons inc rest ih =>
    intro a b c
    simp only [metricsLoopOpt, pyOr0_eq, ih, List.map_cons, List.sum_cons]
    refine Prod.ext ?_ (Prod.ext ?_ ?_) <;> simp <;> ring

lemma metricsLoopPipeline_spec (precio : PyStr → PyStr → ℚ) :
    ∀ (incs : List IncidenciaP) (a b c : ℚ),
      metricsLoopPipeline precio incs (a, b, c) =
        (a + (incs.map (fun i => i.incidencia_precio * i.horas_base)).sum,
         b + (incs.map (fun i => precio i.categoria i.cod_reg_convenio * i.horas_nocturnidad)).sum,
         c + (incs.map (fun i => i.traslados_total)).sum) := by
  intro incs
  induction incs with
  | nil => intro a b c; simp [metricsLoopPipeline]
  | cons inc rest ih =>
    intro a b c
    simp only [metricsLoopPipeline, ih, List.map_cons, List.sum_cons]
    refine Prod.ext ?_ (Prod.ext ?_ ?_) <;> simp <;> ring

lemma ascIndices_nil_iff (marks : List Bool) :
    ∀ start, (ascIndices start marks = [] ↔ marks.all (fun b => !b) = true) := by
  induction marks with
  | nil => intro start; simp [ascIndices]
  | cons b bs ih =>
    intro start
    cases b <;> simp [ascIndices, ih]

lemma applyMarks_nil (marks : List Bool) : applyMarks marks ([] : List α) = [] := by
  cases marks <;> rfl

lemma eraseIdx_append_len (l₁ : List α) (x : α) (l₂ : List α) :
    (l₁ ++ x :: l₂).eraseIdx l₁.length = l₁ ++ l₂ := by
  induction l₁ with
  | nil => rfl
  | cons c cs ih => simp [List.eraseIdx, ih]

lemma foldr_deleteStep_eq (marks : List Bool) :
    ∀ (start : ℕ) (incs : List α),
      (ascIndices start marks).foldr (fun idx l => deleteStep l idx) incs =
        incs.take start ++ applyMarks marks (incs.drop start) := by
  induction marks with
  | nil =>
    intro start incs
    simp [ascIndices, applyMarks]
  | cons b bs ih =>
    intro start incs
    cases b with
    | false =>
      rw [show ascIndices start (false :: bs) = ascIndices (start + 1) bs from rfl]
      rw [ih (start + 1) incs]
      cases hd : incs.drop start with
      | nil =>
        have hlen : incs.length ≤ start := by
          rw [← List.drop_eq_nil_iff]
          exact hd
        have hd1 : incs.drop (start + 1) = [] := by
          rw [List.drop_eq_nil_iff]; omega
        rw [hd1, applyMarks_nil, applyMarks_nil,
            List.take_of_length_le hlen, List.take_of_length_le (by omega)]
      | cons x xs =>
        have hx1 : incs.drop (start + 1) = xs := by
          rw [← List.tail_drop, hd]
          rfl
        have hget : incs[start]? = some x := by
          rw [← List.head?_drop, hd]
          rfl
        rw [hx1, List.take_succ, hget]
        rw [show applyMarks (false :: bs) (x :: xs) = x :: applyMarks bs xs from rfl]
        simp
    | true =>
      rw [show ascIndices start (true :: bs) = start :: ascIndices (start + 1) bs from rfl]
      rw [List.foldr_cons, ih (start + 1) incs]
      cases hd : incs.drop start with
      | nil =>
        have hlen : incs.length ≤ start := by
          rw [← List.drop_eq_nil_iff]
          exact hd
        have hd1 : incs.drop (start + 1) = [] := by
          rw [List.drop_eq_nil_iff]; omega
        rw [hd1, applyMarks_nil, applyMarks_nil,
            List.take_of_length_le hlen, List.take_of_length_le (by omega)]
        unfold deleteStep
        rw [if_neg (by simp; omega)]
      | cons x xs =>
        have hstart : start < incs.length := by
          by_contra hc
          rw [List.drop_eq_nil_iff.mpr (by omega)] at hd
          exact absurd hd (by simp)
        have hx1 : incs.drop (start + 1) = xs := by
          rw [← List.tail_drop, hd]
          rfl
        have hget : incs[start]? = some x := by
          rw [← List.head?_drop, hd]
          rfl
        rw [hx1, List.take_succ, hget]
        rw [show applyMarks (true :: bs) (x :: xs) = applyMarks bs xs from rfl]
        have htl : (incs.take start).length = start := by
          rw [List.length_take]
          omega
        rw [show (some x).toList = [x] from rfl]
        unfold deleteStep
        rw [if_pos (by simp [htl])]
        rw [show incs.take start ++ [x] ++ applyMarks bs xs
              = incs.take start ++ x :: applyMarks bs xs by simp]
        have her := eraseIdx_append_len (incs.take start) x (applyMarks bs xs)
        rw [htl] at her
        exact her

/-! ## Claim theorems -/

/-- C4: `Incidencia.is_valid` returns `True` iff the five fields
`trabajador`, `facturable`, `motivo`, `codigo_crown_destino` and `fecha`
are all non-empty; by this equivalence, no other field (in particular
`observaciones` and `imputacion_nomina`) affects validity. -/
theorem C4_is_valid_iff_five_fields (inc : Incidencia) :
    inc.isValid = true ↔
      (inc.trabajador ≠ [] ∧ inc.facturable ≠ [] ∧ inc.motivo ≠ [] ∧
        inc.codigo_crown_destino ≠ [] ∧ inc.fecha ≠ []) := by
  simp [Incidencia.isValid]

/-- C10: whenever the user changes the selected billing-period month or the
selected supervisor in the header, the in-memory record collection is
unconditionally reset to the empty list, in both workflow variants. -/
theorem C10_header_change_resets_records (s : AppState) (sp : AppStateP)
    (ni nj nip njp : PyStr)
    (h : ni ≠ s.selected_imputacion ∨ nj ≠ s.selected_jefe)
    (hp : nip ≠ sp.selected_imputacion ∨ njp ≠ sp.selected_jefe) :
    (renderHeaderUpdate s ni nj).incidencias = [] ∧
      (renderHeaderUpdateP sp nip njp).incidencias = [] := by
  constructor
  · unfold renderHeaderUpdate
    by_cases h1 : ni ≠ s.selected_imputacion
    · simp only [if_pos h1]
      split <;> rfl
    · simp only [if_neg h1]
      have h2 : nj ≠ s.selected_jefe := by
        rcases h with h | h
        · exact absurd h h1
        · exact h
      simp only [if_pos h2]
  · unfold renderHeaderUpdateP
    by_cases h1 : nip ≠ sp.selected_imputacion
    · simp only [if_pos h1]
      split <;> rfl
    · simp only [if_neg h1]
      have h2 : njp ≠ sp.selected_jefe := by
        rcases hp with h | h
        · exact absurd h h1
        · exact h
      simp only [if_pos h2]

/-- C10 witness: a concrete state with one record is cleared by a month
change and by a supervisor change. -/
theorem C10_header_change_resets_records_witness :
    (renderHeaderUpdate stateWithRecords ['x'] ['j']).incidencias = [] ∧
      (renderHeaderUpdateP stateWithRecordsP ['m'] ['y']).incidencias = [] :=
  C10_header_change_resets_records stateWithRecords stateWithRecordsP
    ['x'] ['j'] ['m'] ['y'] (Or.inl (by decide)) (Or.inr (by decide))

/-- C9: the content-hash function returns the digest of the bytes when the
file is readable (and is deterministic in them); a missing file yields the
sentinel `"FILE_NOT_FOUND"` and a failed read the sentinel `"ERROR_HASH"`,
neither of which can equal any 32-character hexdigest ever cached, so a
lookup keyed by them cannot hit a digest-keyed entry. -/
theorem C9_file_hash_sentinels (md5hex : List ℕ → PyStr)
    (hlen : ∀ bs, (md5hex bs).length = 32) :
    (∀ bs bs', bs = bs' →
        getFileHash md5hex (.ok bs) = getFileHash md5hex (.ok bs')) ∧
    (∀ bs, getFileHash md5hex (.ok bs) = md5hex bs) ∧
    (∀ bs, getFileHash md5hex .missing ≠ md5hex bs) ∧
    (∀ bs, getFileHash md5hex .err ≠ md5hex bs) ∧
    getFileHash md5hex .err ≠ getFileHash md5hex .missing := by
  refine ⟨fun bs bs' h => by rw [h], fun bs => rfl, ?_, ?_, ?_⟩
  · intro bs h
    have h2 := congrArg List.length h
    rw [hlen bs] at h2
    have h3 : (getFileHash md5hex FileState.missing).length = 14 := rfl
    omega
  · intro bs h
    have h2 := congrArg List.length h
    rw [hlen bs] at h2
    have h3 : (getFileHash md5hex FileState.err).length = 10 := rfl
    omega
  · intro h
    have h2 := congrArg List.length h
    have ha : (getFileHash md5hex FileState.err).length = 10 := rfl
    have hb : (getFileHash md5hex FileState.missing).length = 14 := rfl
    omega

/-- C9 witness: the theorem applied to a digest function of the correct
output length, evaluated at the empty byte list. -/
theorem C9_file_hash_sentinels_witness :
    getFileHash md5hexConst .missing ≠ md5hexConst [] ∧
      getFileHash md5hexConst .err ≠ md5hexConst [] := by
  have h := C9_file_hash_sentinels md5hexConst (fun bs => by simp [md5hexConst])
  exact ⟨h.2.2.1 [], h.2.2.2.1 []⟩

/-- C7: delete-selected removes exactly the records at global index
`start + i` for the marked page rows `i` (the deletion is performed in
descending index order), all unmarked records survive in their original
relative order, and when no row is marked the collection is returned
untouched together with the warning flag. -/
theorem C7_delete_selected_spec (start : ℕ) (marks : List Bool) (incs : List α) :
    deleteSelectedRows start marks incs =
      if marks.any (fun b => b) then
        (incs.take start ++ applyMarks marks (incs.drop start), false)
      else (incs, true) := by
  unfold deleteSelectedRows
  by_cases h : ascIndices start marks = []
  · have hall : marks.all (fun b => !b) = true := (ascIndices_nil_iff marks start).mp h
    rw [if_pos h, if_neg ?hany]
    case hany =>
      intro han
      obtain ⟨x, hx, hxx⟩ := List.any_eq_true.mp han
      have hfx := List.all_eq_true.mp hall x hx
      rw [hxx] at hfx
      exact absurd hfx (by decide)
  · rw [if_neg h, if_pos ?hany]
    case hany =>
      by_contra hcon
      have hall : ∀ x ∈ marks, x = false := by
        intro x hx
        by_contra hxx
        exact hcon (List.any_eq_true.mpr ⟨x, hx, by revert hxx; cases x <;> simp⟩)
      exact h ((ascIndices_nil_iff marks start).mpr
        (List.all_eq_true.mpr (fun x hx => by rw [hall x hx]; rfl)))
    rw [List.foldl_reverse]
    rw [foldr_deleteStep_eq marks start incs]

/-- C5 counterexample: the center-code normalization applied to the
numeric-like input `"1E3"` (parseable as a float) returns it unchanged
with its `'E'` intact, because the digits-only gate rejects the letter;
and on `"1.2.3"` the same normalization raises instead of returning. -/
theorem C5_normalize_counterexample :
    (∃ q, parseFloat? ['1', 'E', '3'] = some q) ∧
      normalizeCentro ['1', 'E', '3'] = some ['1', 'E', '3'] ∧
      'E' ∈ ['1', 'E', '3'] ∧
      normalizeCentro ['1', '.', '2', '.', '3'] = none :=
  ⟨⟨_, rfl⟩, by decide, by decide, by decide⟩

/-- C5 (amended): the agreement-code normalization is idempotent on every
input and the center-code normalization is idempotent on every input on
which it returns at all; the no-`.`/`e`/`E` guarantee holds for the
agreement-code variant whenever the numeric conversion succeeds, and for
the center-code variant whenever its digits gate passes and the conversion
succeeds. -/
theorem C5_normalize_amended (s t : PyStr) (q : ℚ) :
    (normalizeConvenio (normalizeConvenio s) = normalizeConvenio s) ∧
    (normalizeCentro s = some t → normalizeCentro t = some t) ∧
    (parseFloat? s = some q →
      '.' ∉ normalizeConvenio s ∧ 'e' ∉ normalizeConvenio s ∧ 'E' ∉ normalizeConvenio s) ∧
    (centroGate s = true → parseFloat? s = some q →
      normalizeCentro s = some (intToStr (pyTrunc q)) ∧
      '.' ∉ intToStr (pyTrunc q) ∧ 'e' ∉ intToStr (pyTrunc q) ∧
        'E' ∉ intToStr (pyTrunc q)) := by
  refine ⟨normalizeConvenio_idem s, normalizeCentro_fix, ?_, ?_⟩
  · intro h
    rw [normalizeConvenio_of_parse h]
    exact intToStr_no_special _
  · intro hg hp
    exact ⟨by simp [normalizeCentro, hg, hp], intToStr_no_special _⟩

/-- C5 witness: the amended theorem evaluated at the digit string `"15"`. -/
theorem C5_normalize_amended_witness :
    normalizeConvenio (normalizeConvenio ['1', '5']) = normalizeConvenio ['1', '5'] ∧
      normalizeCentro ['1', '5'] = some ['1', '5'] ∧
      ('.' ∉ normalizeConvenio ['1', '5'] ∧ 'e' ∉ normalizeConvenio ['1', '5'] ∧
        'E' ∉ normalizeConvenio ['1', '5']) ∧
      normalizeCentro ['1', '5'] = some (intToStr (pyTrunc ((15 : ℕ) : ℚ))) := by
  have h := C5_normalize_amended ['1', '5'] ['1', '5'] ((15 : ℕ) : ℚ)
  exact ⟨h.1, h.2.1 (by decide), h.2.2.1 rfl, (h.2.2.2 (by decide) rfl).1⟩

/-- C3: evaluation at the failing input.  A tariff row whose raw category
is `"H ASL"` is stored by `build_tarifa_lookup` under the UNstripped key
`("H ASL", code)` with rate 13, yet `get_precio_nocturnidad` queried with
the row's own raw category and agreement code strips the prefix to
`"ASL"`, misses, and returns `0.0` instead of the stored rate. -/
theorem C3_roundtrip_fails_on_prefixed_category :
    buildTarifaLookup [tarifaRowHASL]
        (['H', ' ', 'A', 'S', 'L'], "99100165012016".data) = some 13 ∧
      getPrecioNocturnidad (buildTarifaLookup [tarifaRowHASL])
        (some ['H', ' ', 'A', 'S', 'L']) (some ("99100165012016".data)) = 0 ∧
      (0 : ℚ) ≠ 13 :=
  ⟨by decide, by decide, by decide⟩

/-- C2: evaluation at the failing input.  A Centros sheet that has the
required `cod_centro_preferente` column (with one live row) but lacks the
`nombre_jefe_ope` column makes `preprocess_centros` raise an uncaught
`KeyError` at the supervisor-blacklist step, instead of degrading to an
empty result with a warning. -/
theorem C2_preprocess_centros_raises_keyerror :
    preprocessCentros dfSinJefe = .error () ∧
      dfSinJefe.cols = ["cod_centro_preferente"] := by
  exact ⟨rfl, rfl⟩

/-- C1 counterexample: in the fixed-multiplier variant, a single valid
record with `traslados_total = 10` and `coste_hora = 2` gives
`total_traslados = 20`, not the claimed `Σ transfer_total = 10`, and
consequently `total_con_ss` differs from
`(total_base + total_night) * 1.3195 + Σ transfer_total`. -/
theorem C1_transfers_counterexample :
    (calculateMetricsOptimized (fun _ _ => 0) [incTraslados]).total_traslados ≠
        incTraslados.traslados_total ∧
    (calculateMetricsOptimized (fun _ _ => 0) [incTraslados]).total_con_ss ≠
      ((calculateMetricsOptimized (fun _ _ => 0) [incTraslados]).total_incidencias +
        (calculateMetricsOptimized (fun _ _ => 0) [incTraslados]).total_nocturnidad) *
          (13195 / 10000) + incTraslados.traslados_total := by
  have h := metricsLoopOpt_spec (fun _ _ => 0) [incTraslados] 0 0 0
  constructor <;>
    simp only [calculateMetricsOptimized, h] <;>
    norm_num [incTraslados]

/-- C1 (amended): in the fixed-multiplier variant (`app_optimized.py`,
SS multiplier 1.3195) the aggregate `total_traslados` is
`Σ transfer_total * employee_hourly_cost` — not the bare `Σ transfer_total`
— while `total_base`, `total_night` and the shape
`total_with_ss = (total_base + total_night) * SS + total_transfers` are as
claimed; in the configurable-multiplier variant `total_traslados` is the
bare `Σ transfer_total` as the claim states. -/
theorem C1_metrics_amended (precio precioP : PyStr → PyStr → ℚ)
    (incs : List Incidencia) (mult : ℚ) (pincs : List IncidenciaP) :
    ((calculateMetricsOptimized precio incs).total_incidencias =
        (incs.map (fun i => i.incidencia_precio * i.incidencia_horas)).sum) ∧
    ((calculateMetricsOptimized precio incs).total_nocturnidad =
        (incs.map (fun i =>
          precio i.categoria i.cod_reg_convenio * i.nocturnidad_horas)).sum) ∧
    ((calculateMetricsOptimized precio incs).total_traslados =
        (incs.map (fun i => i.traslados_total * i.coste_hora)).sum) ∧
    ((calculateMetricsOptimized precio incs).total_con_ss =
        ((calculateMetricsOptimized precio incs).total_incidencias +
          (calculateMetricsOptimized precio incs).total_nocturnidad) * (13195 / 10000) +
          (calculateMetricsOptimized precio incs).total_traslados) ∧
    ((calculateMetricsPipeline mult precioP pincs).total_traslados =
        (pincs.map (fun i => i.traslados_total)).sum) ∧
    ((calculateMetricsPipeline mult precioP pincs).total_con_ss =
        ((calculateMetricsPipeline mult precioP pincs).total_incidencias +
          (calculateMetricsPipeline mult precioP pincs).total_nocturnidad) * mult +
          (calculateMetricsPipeline mult precioP pincs).total_traslados) := by
  have h1 := metricsLoopOpt_spec precio incs 0 0 0
  have h2 := metricsLoopPipeline_spec precioP pincs 0 0 0
  refine ⟨?_, ?_, ?_, ?_, ?_, ?_⟩ <;>
    simp only [calculateMetricsOptimized, calculateMetricsPipeline, h1, h2] <;>
    simp

/-- C6 counterexample: the pipeline variant's `export_to_excel` does not
filter to valid records: fed a single INVALID record (zero valid records),
it still returns a non-`None` spreadsheet instead of the claimed explicit
empty result. -/
theorem C6_pipeline_export_no_filter :
    pipelineExport (fun _ => none) 0 [incPInvalida] ≠ none ∧
      [incPInvalida].filter (fun i => i.isValid) = [] := by
  constructor
  · unfold pipelineExport
    simp
  · decide

/-- C6 (amended): in the main variant `export_to_excel` returns `None`
exactly when the input holds zero valid records and otherwise one row per
valid record (invalid ones contribute no row); in the pipeline variant the
function itself does not filter: it returns `None` exactly when the input
list is empty and one row per input record (its caller pre-filters to
valid records). -/
theorem C6_export_amended (ctx : ExportCtx) (incs : List Incidencia)
    (cuentas : PyStr → Option PyStr) (precioSeries : ℚ) (pincs : List IncidenciaP) :
    (exportToExcel ctx incs = none ↔ incs.filter (fun i => i.isValid) = []) ∧
    (∀ rows, exportToExcel ctx incs = some rows →
        rows.length = (incs.filter (fun i => i.isValid)).length) ∧
    (pipelineExport cuentas precioSeries pincs = none ↔ pincs = []) ∧
    (∀ rows, pipelineExport cuentas precioSeries pincs = some rows →
        rows.length = pincs.length) := by
  refine ⟨?_, ?_, ?_, ?_⟩
  · unfold exportToExcel
    by_cases h : incs.filter (fun i => i.isValid) = [] <;> simp [h]
  · intro rows hr
    unfold exportToExcel at hr
    by_cases h : incs.filter (fun i => i.isValid) = []
    · simp [h] at hr
    · simp only [if_neg h] at hr
      have h2 := Option.some.inj hr
      rw [← h2, List.length_map]
  · unfold pipelineExport
    by_cases h : pincs = [] <;> simp [h]
  · intro rows hr
    unfold pipelineExport at hr
    by_cases h : pincs = []
    · simp [h] at hr
    · simp only [if_neg h] at hr
      have h2 := Option.some.inj hr
      rw [← h2, List.length_map]

/-- C6 witness: one valid record exports to a one-row workbook. -/
theorem C6_export_amended_witness :
    exportToExcel exportCtx0 [incValida] ≠ none ∧
      (exportToExcel exportCtx0 [incValida]).map List.length = some 1 := by
  have h := C6_export_amended exportCtx0 [incValida] (fun _ => none) 0 [incPValida]
  constructor
  · intro hn
    exact absurd (h.1.mp hn) (by decide)
  · rcases hq : exportToExcel exportCtx0 [incValida] with _ | rows
    · exact absurd (h.1.mp hq) (by decide)
    · have hl := h.2.1 rows hq
      rw [Option.map_some', hl]
      decide

/-- C8: if saving the page changes a row's worker name to a nonempty name
present in the employee lookup, the record's category, agreement code and
supervisor are re-derived from that worker's master data while the four
hour/price fields keep their coerced edited values untouched by the
cascade; and when the worker name is unchanged, the saved record is
exactly the original with each mapped column replaced by its own coerced
edited value — no other field is rewritten, so the worker-name cascade is
the only cross-field edit. -/
theorem C8_worker_name_cascade (empinfo : PyStr → Option EmpInfo)
    (centros : PyStr → Option PyStr) (inc : Incidencia) (row : EditedRow)
    (info : EmpInfo) :
    (empinfo (strCoerce row.trabajador) = some info →
      strCoerce row.trabajador ≠ [] →
      strCoerce row.trabajador ≠ inc.trabajador →
      ((processRow empinfo centros inc row).categoria = info.cat_empleado ∧
        (processRow empinfo centros inc row).cod_reg_convenio = info.cod_reg_convenio ∧
        (processRow empinfo centros inc row).nombre_jefe_ope = info.nombre_jefe_ope ∧
        (processRow empinfo centros inc row).incidencia_horas = numCoerce row.incidencia_horas ∧
        (processRow empinfo centros inc row).incidencia_precio = numCoerce row.incidencia_precio ∧
        (processRow empinfo centros inc row).nocturnidad_horas = numCoerce row.nocturnidad_horas ∧
        (processRow empinfo centros inc row).traslados_total = numCoerce row.traslados_total)) ∧
    (strCoerce row.trabajador = inc.trabajador →
      processRow empinfo centros inc row = { inc with
        trabajador := strCoerce row.trabajador
        facturable := strCoerce row.facturable
        motivo := strCoerce row.motivo
        codigo_crown_origen := codeCoerce row.codigo_crown_origen
        codigo_crown_destino := codeCoerce row.codigo_crown_destino
        empresa_destino := strCoerce row.empresa_destino
        incidencia_horas := numCoerce row.incidencia_horas
        incidencia_precio := numCoerce row.incidencia_precio
        nocturnidad_horas := numCoerce row.nocturnidad_horas
        traslados_total := numCoerce row.traslados_total
        fecha := fechaCoerce row.fecha
        observaciones := strCoerce row.observaciones }) := by
  constructor
  · intro hinfo hne hchange
    unfold processRow
    rw [if_pos (And.intro hne hchange)]
    unfold actualizarDatosEmpleado
    rw [if_neg (by simpa using hne), hinfo]
    split
    · rename_i heq
      exact absurd heq (by simp)
    · rename_i info2 heq
      injection heq with heq2
      subst heq2
      split <;> simp
  · intro hsame
    unfold processRow
    rw [if_neg (by simp [hsame])]

/-- C8 witness: the cascade theorem applied to a concrete one-employee
lookup, a rename edit (to `"B"`) and a no-rename edit. -/
theorem C8_worker_name_cascade_witness :
    ((processRow empLookupB (fun _ => none) incOrigA rowRenameB).cod_reg_convenio =
        empInfoB.cod_reg_convenio ∧
      (processRow empLookupB (fun _ => none) incOrigA rowRenameB).incidencia_horas =
        numCoerce rowRenameB.incidencia_horas) ∧
    (processRow empLookupB (fun _ => none) incOrigA rowKeepA).categoria =
      incOrigA.categoria := by
  have h1 := C8_worker_name_cascade empLookupB (fun _ => none) incOrigA rowRenameB empInfoB
  have h2 := C8_worker_name_cascade empLookupB (fun _ => none) incOrigA rowKeepA empInfoB
  have hx := h1.1 (by decide) (by decide) (by decide)
  refine ⟨⟨hx.2.1, hx.2.2.2.1⟩, ?_⟩
  rw [h2.2 (by decide)]
